import Mathlib

/-!
Verification of the connection-sampling and rate-attribution engine of the
network-monitor repository (two programs: a terminal monitor and a GTK
monitor, which duplicate the core logic).  The Python source is embedded
shallowly: pure Python string/integer primitives are modelled first, then
each source function is translated, keeping its name; stateful methods
become explicit state-passing functions; external effects (the `/proc`
reads, the reverse-DNS lookup) are oracle parameters.
-/

/-! ## Python string and integer primitives -/

/-- Splits a character list at every character satisfying `p`, keeping empty
segments, as Python's `str.split(sep)` does for a one-character separator. -/
def splitCharP (p : Char → Bool) : List Char → List (List Char)
  | [] => [[]]
  | c :: cs =>
    match splitCharP p cs with
    | [] => [[c]]
    | h :: t => if p c then [] :: h :: t else (c :: h) :: t

/-- Python `s.split(sep)` for a single-character separator `sep`. -/
def pySplit (sep : Char) (s : String) : List String :=
  (splitCharP (fun c => c = sep) s.data).map String.mk

/-- Python `s.split()` with no argument: split on whitespace runs and drop
empty fields. -/
def pySplitWs (s : String) : List String :=
  ((splitCharP Char.isWhitespace s.data).filter (fun l => !l.isEmpty)).map String.mk

/-- Python `s.startswith(pre)`. -/
def pyStartsWith (s pre : String) : Bool :=
  pre.data.isPrefixOf s.data

/-- Python `s.endswith(suf)`. -/
def pyEndsWith (s suf : String) : Bool :=
  suf.data.isSuffixOf s.data

/-- Python `c in s` for a single character. -/
def pyContainsChar (c : Char) (s : String) : Bool :=
  s.data.contains c

/-- Python `s.rsplit(sep, 1)` for `sep = ':'`: the part before the last colon
and the part after it.  The sources only use it on strings that contain a
colon; without one the whole string is returned as the first component, as
Python's `rsplit` returns `[s]`. -/
def pyRsplitColon (s : String) : String × String :=
  let rev := s.data.reverse
  match rev.dropWhile (fun c => c != ':') with
  | [] => (s, "")
  | _ :: before => (String.mk before.reverse, String.mk (rev.takeWhile (fun c => c != ':')).reverse)

/-- Python `s.split(':')[0]`: the prefix of `s` before the first colon
(`s` itself when there is no colon). -/
def pySplitColonHead (s : String) : String :=
  String.mk (s.data.takeWhile (fun c => c != ':'))

/-- Decimal value of a digit list accumulated left to right; `none` when a
non-digit occurs. -/
def digitsValAux : List Char → Nat → Option Nat
  | [], acc => some acc
  | c :: cs, acc => if c.isDigit then digitsValAux cs (acc * 10 + (c.toNat - 48)) else none

/-- Decimal value of a non-empty all-digit character list. -/
def digitsVal : List Char → Option Nat
  | [] => none
  | l => digitsValAux l 0

/-- Python `int(s)` on the optionally signed decimal strings these programs
feed it (tokens taken from `/proc` files); `none` models `ValueError`. -/
def pyInt (s : String) : Option Int :=
  match s.data with
  | '-' :: rest => (digitsVal rest).map (fun n => -(n : Int))
  | '+' :: rest => (digitsVal rest).map (fun n => (n : Int))
  | l => (digitsVal l).map (fun n => (n : Int))

/-! ## Shared data model -/

/-- One parsed connection record, as built by `get_connections` in both
programs (all fields are the strings taken from the `ss` output; `pid` is
the sentinel string `"N/A"` when no owner was found). -/
structure Conn where
  protocol : String
  state : String
  local_addr : String
  remote : String
  program : String
  pid : String
  deriving DecidableEq

/-- A connection with the derived per-cycle rates attached, as the GTK
program stores them in the connection dict (`rx_rate` / `tx_rate`). -/
structure RatedConn where
  conn : Conn
  rx_rate : Int
  tx_rate : Int
  deriving DecidableEq

/-- The retained per-process counter map (`prev_io` / `current_io` in the
sources): an insertion-ordered association list from pid string to the
cumulative (read, write) counters, modelling the Python dict. -/
abbrev IoMap := List (String × Int × Int)

/-- Python dict lookup `m[pid]` / `pid in m` on an `IoMap`. -/
def ioLookup (pid : String) : IoMap → Option (Int × Int)
  | [] => none
  | (p, v) :: t => if p = pid then some v else ioLookup pid t

/-- Python dict assignment `m[pid] = v` on an `IoMap` (overwrite in place,
append when absent). -/
def ioInsert (pid : String) (v : Int × Int) : IoMap → IoMap
  | [] => [(pid, v)]
  | (p, w) :: t => if p = pid then (pid, v) :: t else (p, w) :: ioInsert pid v t

/-- Reads `/proc/<pid>/io` line material: fold over the lines keeping the
last `rchar:` and `wchar:` values; `Except.error` models the exceptions the
Python body can raise (`IndexError` from `line.split()[1]`, `ValueError`
from `int`). -/
def readIoLines : List String → Int → Int → Except Unit (Int × Int)
  | [], rx, tx => Except.ok (rx, tx)
  | l :: ls, rx, tx =>
    if pyStartsWith l "rchar:" then
      match (pySplitWs l).get? 1 with
      | none => Except.error ()
      | some t =>
        match pyInt t with
        | none => Except.error ()
        | some v => readIoLines ls v tx
    else if pyStartsWith l "wchar:" then
      match (pySplitWs l).get? 1 with
      | none => Except.error ()
      | some t =>
        match pyInt t with
        | none => Except.error ()
        | some v => readIoLines ls rx v
    else readIoLines ls rx tx

/-- `get_process_io(pid)` (identical in network-monitor.py lines 87-101 and
network-monitor-gtk.py lines 206-220).  The file content is the input:
`none` models the `open` call raising (process vanished, permission
denied); the surrounding bare `except` turns every exception into
`(0, 0)`. -/
def get_process_io (file : Option String) : Int × Int :=
  match file with
  | none => (0, 0)
  | some content =>
    match readIoLines (pySplit '\n' content) 0 0 with
    | Except.ok p => p
    | Except.error _ => (0, 0)

/-! ## Terminal program (network-monitor.py) -/

namespace Terminal

/-- `resolve_address` from network-monitor.py lines 103-112. -/
def resolve_address (addr : String) : String :=
  if addr = "0.0.0.0:*" || addr = "*:*" || addr = "[::]:*" then "ANY"
  else if pyStartsWith addr "127.0.0.1:" || pyStartsWith addr "[::1]:" then "LOCALHOST"
  else if pyStartsWith addr "224.0.0.251:" then "MDNS"
  else addr

/-- Result of one pass of the terminal main loop's per-connection body:
the printed rows with their rates, the retained counter map after the pass,
and the `active_connections` count. -/
structure TermOut where
  rows : List (Conn × Int × Int)
  prev_io : IoMap
  active : Nat
  deriving DecidableEq

/-- The per-connection body of `main`'s display loop (network-monitor.py
lines 202-222): localhost-destined connections are skipped entirely; for the
rest, when a pid is known the current counters are read (`io` is the
`/proc` oracle for this cycle), the rate is the raw difference against
`prev_io` when the pid is present there (no clamping in this program), and
`prev_io[pid]` is assigned in place. -/
def cycleRows (prev_io : IoMap) (io : String → Int × Int) : List Conn → TermOut
  | [] => ⟨[], prev_io, 0⟩
  | c :: cs =>
    if resolve_address c.remote = "LOCALHOST" then cycleRows prev_io io cs
    else
      let step : (Int × Int) × IoMap :=
        if c.pid ≠ "N/A" then
          let cur := io c.pid
          (match ioLookup c.pid prev_io with
            | some p => (cur.1 - p.1, cur.2 - p.2)
            | none => (0, 0),
            ioInsert c.pid cur prev_io)
        else ((0, 0), prev_io)
      let rest := cycleRows step.2 io cs
      ⟨(c, step.1.1, step.1.2) :: rest.rows, rest.prev_io,
        if 0 < step.1.1 || 0 < step.1.2 then rest.active + 1 else rest.active⟩

/-- The summary line's total (network-monitor.py line 227 prints
`len(connections)`, counting every connection including the skipped
localhost ones). -/
def summary_total (connections : List Conn) : Nat :=
  connections.length

end Terminal

/-! ## GTK program (network-monitor-gtk.py) -/

namespace Gtk

/-- The mutable attributes of `NetworkMonitorWindow` that the core logic
reads and writes (lines 31-39): the resolution toggle, the hostname cache
(dict, insertion-ordered association list), the pending set of IP
components under background resolution, and the retained counter map. -/
structure MonitorState where
  resolve_hosts : Bool
  resolution_cache : List (String × String)
  resolution_pending : List String
  prev_io : IoMap
  deriving DecidableEq

/-- Python dict lookup on the resolution cache. -/
def cacheLookup (addr : String) : List (String × String) → Option String
  | [] => none
  | (a, v) :: t => if a = addr then some v else cacheLookup addr t

/-- Python dict assignment on the resolution cache. -/
def cacheInsert (addr v : String) : List (String × String) → List (String × String)
  | [] => [(addr, v)]
  | (a, w) :: t => if a = addr then (addr, v) :: t else (a, w) :: cacheInsert addr v t

/-- Python `set.discard`: remove the element when present. -/
def setDiscard (x : String) (l : List String) : List String :=
  l.filter (fun y => y != x)

/-- The IP component the GTK `resolve_address` extracts from a full
`address:port` endpoint (lines 335-339): everything before the last colon,
with the surrounding brackets stripped for IPv6. -/
def ip_part_of (addr : String) : String :=
  let ip0 := (pyRsplitColon addr).1
  if pyStartsWith ip0 "[" && pyEndsWith ip0 "]"
  then String.mk ((ip0.data.drop 1).dropLast) else ip0

/-- Result of one GTK `resolve_address` call: the returned display string,
the state after the call, and the background lookups started by the call
(each is the `(ip_part, full_addr)` argument pair of a spawned
`async_resolve_host` thread). -/
structure ResolveOut where
  display : String
  state : MonitorState
  scheduled : List (String × String)
  deriving DecidableEq

/-- `resolve_address` from network-monitor-gtk.py lines 318-351.  Special
forms resolve deterministically; with resolution off the raw endpoint is
returned; otherwise the cache is consulted, and on a miss for an endpoint
with a colon a background lookup is started unless the IP component is
already pending (`set.add` modelled as consing the absent element). -/
def resolve_address (st : MonitorState) (addr : String) : ResolveOut :=
  if addr = "0.0.0.0:*" || addr = "*:*" || addr = "[::]:*" then ⟨"ANY", st, []⟩
  else if pyStartsWith addr "127.0.0.1:" || pyStartsWith addr "[::1]:" then ⟨"LOCALHOST", st, []⟩
  else if pyStartsWith addr "224.0.0.251:" then ⟨"MDNS", st, []⟩
  else if !st.resolve_hosts then ⟨addr, st, []⟩
  else
    match cacheLookup addr st.resolution_cache with
    | some v => ⟨v, st, []⟩
    | none =>
      if pyContainsChar ':' addr then
        if !(st.resolution_pending.contains (ip_part_of addr)) then
          ⟨addr, {st with resolution_pending := ip_part_of addr :: st.resolution_pending},
            [(ip_part_of addr, addr)]⟩
        else ⟨addr, st, []⟩
      else ⟨addr, st, []⟩

/-- The pure value `resolve_address` displays: it depends only on the
toggle and the cache, never on the pending set or the counter map. -/
def displayOf (hosts : Bool) (cache : List (String × String)) (addr : String) : String :=
  if addr = "0.0.0.0:*" || addr = "*:*" || addr = "[::]:*" then "ANY"
  else if pyStartsWith addr "127.0.0.1:" || pyStartsWith addr "[::1]:" then "LOCALHOST"
  else if pyStartsWith addr "224.0.0.251:" then "MDNS"
  else if !hosts then addr
  else
    match cacheLookup addr cache with
    | some v => v
    | none => addr

/-- `async_resolve_host` body after the semaphore is acquired (lines
356-363): the blocking reverse lookup is the oracle `dns`; on success the
resolved value is `hostname:port`, on any failure the raw endpoint itself
(negative caching).  The returned pair is what `GLib.idle_add` delivers to
`update_resolution_cache`. -/
def async_resolve_host (dns : String → Option String) (ip_part full_addr : String) :
    String × String :=
  match dns ip_part with
  | some hostname => (full_addr, hostname ++ ":" ++ (pyRsplitColon full_addr).2)
  | none => (full_addr, full_addr)

/-- `update_resolution_cache` from lines 365-372, run on the main thread on
lookup completion.  The Bool result records that `update_connections` was
invoked (a render re-run was triggered).  Note the guard tests the full
`addr` against the pending set, which stores bare IP components. -/
def update_resolution_cache (st : MonitorState) (addr resolved : String) :
    MonitorState × Bool :=
  let st1 := {st with resolution_cache := cacheInsert addr resolved st.resolution_cache}
  let st2 :=
    if st1.resolution_pending.contains addr
    then {st1 with resolution_pending := setDiscard (pySplitColonHead addr) st1.resolution_pending}
    else st1
  (st2, true)

/-- `on_resolve_toggled` from lines 374-384; `active` is the toggle
button's new state.  The Bool result records that a `delayed_refresh` was
scheduled via `GLib.idle_add` (the source schedules it unconditionally,
for disabling and enabling alike). -/
def on_resolve_toggled (st : MonitorState) (active : Bool) : MonitorState × Bool :=
  let st1 := {st with resolve_hosts := active}
  let st2 :=
    if !active
    then {st1 with resolution_cache := [], resolution_pending := []}
    else st1
  (st2, true)

/-- `delayed_refresh` from lines 386-390: clears the retained counter map,
then calls `update_connections` (re-render). -/
def delayed_refresh (st : MonitorState) : MonitorState :=
  {st with prev_io := []}

/-- Output of the rate-attribution loop of `update_connections` (lines
422-441): the connections with rates attached, and the `current_io` map
built during the loop. -/
structure RatedOut where
  rated : List RatedConn
  current_io : IoMap
  deriving DecidableEq

/-- The loop of `update_connections` lines 422-441 with the `current_io`
accumulator explicit: for each connection with a known pid the counters are
read (`io` is the `/proc` oracle for this cycle), stored into `current_io`,
and the rates are the clamped differences `max(0, current - previous)`
against `prev_io` when the pid has a previous sample, else `(0, 0)`. -/
def computeRatesAux (prev_io : IoMap) (io : String → Int × Int) (cur : IoMap) :
    List Conn → RatedOut
  | [] => ⟨[], cur⟩
  | c :: cs =>
    if c.pid ≠ "N/A" then
      let v := io c.pid
      let r : Int × Int :=
        match ioLookup c.pid prev_io with
        | some p => (max 0 (v.1 - p.1), max 0 (v.2 - p.2))
        | none => (0, 0)
      let rest := computeRatesAux prev_io io (ioInsert c.pid v cur) cs
      ⟨⟨c, r.1, r.2⟩ :: rest.rated, rest.current_io⟩
    else
      let rest := computeRatesAux prev_io io cur cs
      ⟨⟨c, 0, 0⟩ :: rest.rated, rest.current_io⟩

/-- The rate-attribution loop started on an empty `current_io`, as at line
422. -/
def computeRates (prev_io : IoMap) (io : String → Int × Int) (conns : List Conn) : RatedOut :=
  computeRatesAux prev_io io [] conns

/-- The localhost filter of `update_connections` lines 446-450: the list
comprehension calls `resolve_address` on each connection's remote endpoint
in order (threading the resolver state) and keeps the connection unless the
display is `"LOCALHOST"`. -/
def filterLocalhost (st : MonitorState) : List RatedConn → List RatedConn × MonitorState
  | [] => ([], st)
  | r :: rs =>
    let out := resolve_address st r.conn.remote
    let rest := filterLocalhost out.state rs
    if out.display = "LOCALHOST" then rest else (r :: rest.1, rest.2)

end Gtk

/-! ## Sorting (GTK `sort_connections`) -/

/-- Stable insertion step: `x` is placed before the first element it
compares `le` to, so elements equal to `x` that are already in the list
stay before it. -/
def insertLe {α : Type} (le : α → α → Bool) (x : α) : List α → List α
  | [] => [x]
  | y :: ys => if le x y then x :: y :: ys else y :: insertLe le x ys

/-- Stable sort by the Boolean comparison `le` (insertion sort; any stable
sort with a total-preorder comparison produces the same list, so this also
models Python's Timsort). -/
def stableSortLe {α : Type} (le : α → α → Bool) : List α → List α
  | [] => []
  | x :: xs => insertLe le x (stableSortLe le xs)

/-- Python `sorted(l, key=f, reverse=r)`: a stable sort by the key; with
`reverse` the key comparison is flipped while ties still keep input
order. -/
def pySorted {α κ : Type} (f : α → κ) (leK : κ → κ → Bool) (reverse : Bool)
    (l : List α) : List α :=
  stableSortLe (fun a b => if reverse then leK (f b) (f a) else leK (f a) (f b)) l

namespace Gtk

/-- `sort_connections` from lines 263-286, parametric in the column key:
`get_sort_key` returns the raw `tx_rate` / `rx_rate` number for the two
numeric columns and a lowercased display string for the others, so the key
type and its order are parameters here; the sort itself is
`sorted(connections, key=get_sort_key, reverse=not self.sort_ascending)`. -/
def sort_connections {κ : Type} (f : RatedConn → κ) (leK : κ → κ → Bool)
    (sort_ascending : Bool) (conns : List RatedConn) : List RatedConn :=
  match conns with
  | [] => []
  | _ => pySorted f leK (!sort_ascending) conns

/-- `get_sort_key` for `sort_column = 5` (line 271): the raw numeric
`tx_rate`. -/
def txKey (r : RatedConn) : Int := r.tx_rate

/-- `get_sort_key` for `sort_column = 6` (line 273): the raw numeric
`rx_rate`. -/
def rxKey (r : RatedConn) : Int := r.rx_rate

/-- The order on numeric sort keys. -/
def intLe (a b : Int) : Bool := decide (a ≤ b)

/-- Result of one `update_connections` cycle (lines 411-495): the emitted
(sorted, localhost-free) rows, the window state afterwards, and the totals
passed to `update_status`. -/
structure CycleOut where
  rows : List RatedConn
  state : MonitorState
  total : Nat
  active : Nat

/-- The data path of `update_connections` (lines 411-495, widget
construction omitted): attach rates and rebuild the counter map, replace
`prev_io` with the freshly built `current_io` (line 444), filter out
localhost-destined rows, sort, count the active rows (either rate positive)
among the emitted ones, and report `len(connections)` as the total. -/
def update_connections {κ : Type} (st : MonitorState) (io : String → Int × Int)
    (conns : List Conn) (f : RatedConn → κ) (leK : κ → κ → Bool) (asc : Bool) : CycleOut :=
  let ro := computeRates st.prev_io io conns
  let st1 := {st with prev_io := ro.current_io}
  let fl := filterLocalhost st1 ro.rated
  let sorted := sort_connections f leK asc fl.1
  let active := sorted.countP (fun r => decide (0 < r.rx_rate) || decide (0 < r.tx_rate))
  ⟨sorted, fl.2, conns.length, active⟩

end Gtk

/-! ## The admission gate for background lookups -/

/-- State of the counting admission gate (`threading.Semaphore(5)`, line
39) together with the number of workers currently inside the guarded
region (executing the blocking reverse lookup in `async_resolve_host`,
lines 353-363). -/
structure SemState where
  available : Nat
  inflight : Nat
  deriving DecidableEq

/-- Steps of the gate protocol: a worker enters the lookup only by
acquiring the gate (`with self.resolution_semaphore:` blocks until the
count is positive), and leaving the `with` block releases it on every exit
path, success or exception. -/
inductive SemStep : SemState → SemState → Prop
  | acquire (s : SemState) (h : 0 < s.available) :
      SemStep s ⟨s.available - 1, s.inflight + 1⟩
  | release (s : SemState) (h : 0 < s.inflight) :
      SemStep s ⟨s.available + 1, s.inflight - 1⟩

/-- The initial gate state: count 5, no worker in flight. -/
def semInit : SemState := ⟨5, 0⟩

/-- States the lookup system can reach from startup. -/
def SemReachable : SemState → Prop :=
  Relation.ReflTransGen SemStep semInit

/-! ## Concrete fixtures for counterexample and witness theorems -/

/-- A `/proc` oracle for one cycle: every pid currently reads `(5, 5)`. -/
def ioFix : String → Int × Int := fun _ => (5, 5)

/-- A `/proc` oracle where every pid reads `(0, 0)`. -/
def ioZero : String → Int × Int := fun _ => (0, 0)

/-- A `/proc` oracle where every pid reads `(100, 100)`. -/
def ioActiveFix : String → Int × Int := fun _ => (100, 100)

/-- A retained counter map with a previous sample `(10, 10)` for pid 1. -/
def prevFix : IoMap := [("1", (10, 10))]

/-- A non-localhost connection owned by pid 1. -/
def connFix : Conn := ⟨"tcp", "ESTAB", "10.0.0.2:40000", "8.8.8.8:53", "dns", "1"⟩

/-- A non-localhost connection owned by pid 2. -/
def connFix2 : Conn := ⟨"udp", "UNCONN", "10.0.0.2:40001", "1.1.1.1:53", "dns2", "2"⟩

/-- A localhost-destined connection owned by pid 9. -/
def localFix : Conn := ⟨"tcp", "ESTAB", "10.0.0.2:40002", "127.0.0.1:631", "cups", "9"⟩

/-- A fresh GTK window state: resolution on, everything empty. -/
def stFix : Gtk.MonitorState := ⟨true, [], [], []⟩

/-- A GTK state in which the lookup for IP 93.184.216.34 is pending. -/
def stPendingFix : Gtk.MonitorState := ⟨true, [], ["93.184.216.34"], []⟩

/-- A GTK state with resolution off and non-empty cache, pending set and
counter map, used to observe the effects of toggling resolution on. -/
def stToggleFix : Gtk.MonitorState := ⟨false, [("a", "b")], ["c"], [("7", (1, 2))]⟩

/-- A GTK state holding a previous counter sample for pid 9, so that the
localhost connection `localFix` gets a positive rate in the next cycle. -/
def stActiveLocalFix : Gtk.MonitorState := ⟨true, [], [], [("9", (0, 0))]⟩

/-! ## Helper lemmas: maps and membership -/

theorem ioLookup_ioInsert (q pid : String) (v : Int × Int) (m : IoMap) :
    ioLookup pid (ioInsert q v m) = if q = pid then some v else ioLookup pid m := by
  induction m with
  | nil => simp [ioInsert, ioLookup]
  | cons hd tl ih =>
    obtain ⟨p, w⟩ := hd
    by_cases hq : p = q
    · subst hq
      simp [ioInsert, ioLookup]
      split <;> simp [ioLookup, *]
    · simp only [ioInsert, if_neg hq]
      by_cases hp : p = pid
      · subst hp
        have : ¬ q = p := fun h => hq h.symm
        simp [ioLookup, this, if_neg this]
      · simp [ioLookup, hp, ih]

theorem contains_false_not_mem {x : String} {l : List String}
    (h : l.contains x = false) : x ∉ l := by
  induction l with
  | nil => simp
  | cons y ys ih =>
    simp only [List.contains_cons, Bool.or_eq_false_iff] at h
    intro hm
    rcases List.mem_cons.mp hm with h1 | h1
    · subst h1
      simp at h
    · exact ih h.2 h1

/-! ## Helper lemmas: the GTK resolver -/

theorem resolve_state_fields (st : Gtk.MonitorState) (a : String) :
    (Gtk.resolve_address st a).state.resolve_hosts = st.resolve_hosts
    ∧ (Gtk.resolve_address st a).state.resolution_cache = st.resolution_cache
    ∧ (Gtk.resolve_address st a).state.prev_io = st.prev_io := by
  unfold Gtk.resolve_address
  repeat' split
  all_goals simp

theorem resolve_display_eq (st : Gtk.MonitorState) (a : String) :
    (Gtk.resolve_address st a).display
      = Gtk.displayOf st.resolve_hosts st.resolution_cache a := by
  unfold Gtk.resolve_address Gtk.displayOf
  repeat' split
  all_goals simp_all

theorem filterLocalhost_fst (st : Gtk.MonitorState) (rs : List RatedConn) :
    (Gtk.filterLocalhost st rs).1
      = rs.filter
          (fun r => Gtk.displayOf st.resolve_hosts st.resolution_cache r.conn.remote
                      != "LOCALHOST") := by
  induction rs generalizing st with
  | nil => simp [Gtk.filterLocalhost]
  | cons r rs ih =>
    have hst := resolve_state_fields st r.conn.remote
    have hd := resolve_display_eq st r.conn.remote
    by_cases hL : (Gtk.resolve_address st r.conn.remote).display = "LOCALHOST"
    · have hstep : (Gtk.filterLocalhost st (r :: rs)).1
          = (Gtk.filterLocalhost (Gtk.resolve_address st r.conn.remote).state rs).1 := by
        simp only [Gtk.filterLocalhost, if_pos hL]
      rw [hstep, ih, hst.1, hst.2.1]
      rw [hd] at hL
      simp [List.filter_cons, hL]
    · have hstep : (Gtk.filterLocalhost st (r :: rs)).1
          = r :: (Gtk.filterLocalhost (Gtk.resolve_address st r.conn.remote).state rs).1 := by
        simp only [Gtk.filterLocalhost, if_neg hL]
      rw [hstep, ih, hst.1, hst.2.1]
      rw [hd] at hL
      simp [List.filter_cons, hL]

theorem filterLocalhost_prev (st : Gtk.MonitorState) (rs : List RatedConn) :
    (Gtk.filterLocalhost st rs).2.prev_io = st.prev_io := by
  induction rs generalizing st with
  | nil => simp [Gtk.filterLocalhost]
  | cons r rs ih =>
    have hst := resolve_state_fields st r.conn.remote
    simp only [Gtk.filterLocalhost]
    split <;> simpa [ih (Gtk.resolve_address st r.conn.remote).state] using hst.2.2

/-! ## Helper lemmas: stable sorting -/

theorem insertLe_perm {α : Type} (le : α → α → Bool) (x : α) (l : List α) :
    List.Perm (insertLe le x l) (x :: l) := by
  induction l with
  | nil => simp [insertLe]
  | cons y ys ih =>
    simp only [insertLe]
    split
    · exact List.Perm.refl _
    · exact ((ih.cons y).trans (List.Perm.swap x y ys))

theorem stableSortLe_perm {α : Type} (le : α → α → Bool) (l : List α) :
    List.Perm (stableSortLe le l) l := by
  induction l with
  | nil => simp [stableSortLe]
  | cons x xs ih => exact (insertLe_perm le x (stableSortLe le xs)).trans (ih.cons x)

theorem sort_connections_perm {κ : Type} (f : RatedConn → κ) (leK : κ → κ → Bool)
    (asc : Bool) (conns : List RatedConn) :
    List.Perm (Gtk.sort_connections f leK asc conns) conns := by
  cases conns with
  | nil => exact List.Perm.refl _
  | cons c cs => exact stableSortLe_perm _ _

theorem mem_insertLe {α : Type} {le : α → α → Bool} {x z : α} {l : List α}
    (h : z ∈ insertLe le x l) : z = x ∨ z ∈ l := by
  have := (insertLe_perm le x l).mem_iff.mp h
  simpa using this

theorem insertLe_pairwise {α : Type} {le : α → α → Bool}
    (htot : ∀ a b, le a b = true ∨ le b a = true)
    (htrans : ∀ a b c, le a b = true → le b c = true → le a c = true)
    (x : α) (l : List α) (hl : l.Pairwise (fun a b => le a b = true)) :
    (insertLe le x l).Pairwise (fun a b => le a b = true) := by
  induction l with
  | nil => simp [insertLe]
  | cons y ys ih =>
    rcases List.pairwise_cons.mp hl with ⟨hy, hys⟩
    simp only [insertLe]
    split
    · rename_i hxy
      refine List.pairwise_cons.mpr ⟨?_, hl⟩
      intro z hz
      rcases List.mem_cons.mp hz with h1 | h1
      · subst h1; exact hxy
      · exact htrans x y z hxy (hy z h1)
    · rename_i hxy
      have hyx : le y x = true := by
        rcases htot x y with h | h
        · exact absurd h hxy
        · exact h
      refine List.pairwise_cons.mpr ⟨?_, ih hys⟩
      intro z hz
      rcases mem_insertLe hz with h1 | h1
      · subst h1; exact hyx
      · exact hy z h1

theorem stableSortLe_pairwise {α : Type} {le : α → α → Bool}
    (htot : ∀ a b, le a b = true ∨ le b a = true)
    (htrans : ∀ a b c, le a b = true → le b c = true → le a c = true)
    (l : List α) :
    (stableSortLe le l).Pairwise (fun a b => le a b = true) := by
  induction l with
  | nil => simp [stableSortLe]
  | cons x xs ih => exact insertLe_pairwise htot htrans x _ ih

theorem keyedInsert_filter_self {α : Type} (f : α → Int) (leB : Int → Int → Bool)
    (hrefl : ∀ k, leB k k = true) (x : α) (l : List α) :
    (insertLe (fun a b => leB (f a) (f b)) x l).filter (fun y => f y == f x)
      = x :: l.filter (fun y => f y == f x) := by
  induction l with
  | nil => simp [insertLe]
  | cons y ys ih =>
    simp only [insertLe]
    split
    · simp [List.filter_cons]
    · rename_i hxy
      have hne : (f y == f x) = false := by
        apply beq_eq_false_iff_ne.mpr
        intro h
        rw [← h] at hxy
        exact hxy (hrefl (f y))
      have hne' : (f y == f x) = false := hne
      simp only [List.filter_cons, hne, ih]
      simp [hne]

theorem keyedInsert_filter_other {α : Type} (f : α → Int) (leB : Int → Int → Bool)
    (x : α) (k : Int) (hk : (f x == k) = false) (l : List α) :
    (insertLe (fun a b => leB (f a) (f b)) x l).filter (fun y => f y == k)
      = l.filter (fun y => f y == k) := by
  induction l with
  | nil => simp [insertLe, List.filter_cons, hk]
  | cons y ys ih =>
    simp only [insertLe]
    split
    · simp [List.filter_cons, hk]
    · simp only [List.filter_cons, ih]

theorem keyedSort_filter {α : Type} (f : α → Int) (leB : Int → Int → Bool)
    (hrefl : ∀ k, leB k k = true) (l : List α) (k : Int) :
    (stableSortLe (fun a b => leB (f a) (f b)) l).filter (fun y => f y == k)
      = l.filter (fun y => f y == k) := by
  induction l with
  | nil => simp [stableSortLe]
  | cons x xs ih =>
    simp only [stableSortLe]
    by_cases hx : f x = k
    · subst hx
      rw [keyedInsert_filter_self f leB hrefl, ih]
      simp [List.filter_cons]
    · have hk : (f x == k) = false := beq_eq_false_iff_ne.mpr hx
      rw [keyedInsert_filter_other f leB x k hk, ih]
      simp [List.filter_cons, hk]

/-! ## Helper lemmas: reductions of the Python sort wrapper -/

theorem pySorted_false_eq {α κ : Type} (f : α → κ) (leK : κ → κ → Bool) (l : List α) :
    pySorted f leK false l = stableSortLe (fun a b => leK (f a) (f b)) l := rfl

theorem pySorted_true_eq {α κ : Type} (f : α → κ) (leK : κ → κ → Bool) (l : List α) :
    pySorted f leK true l = stableSortLe (fun a b => leK (f b) (f a)) l := rfl

theorem sort_connections_cons_asc {κ : Type} (f : RatedConn → κ) (leK : κ → κ → Bool)
    (c : RatedConn) (cs : List RatedConn) :
    Gtk.sort_connections f leK true (c :: cs)
      = stableSortLe (fun a b => leK (f a) (f b)) (c :: cs) := rfl

theorem sort_connections_cons_desc {κ : Type} (f : RatedConn → κ) (leK : κ → κ → Bool)
    (c : RatedConn) (cs : List RatedConn) :
    Gtk.sort_connections f leK false (c :: cs)
      = stableSortLe (fun a b => leK (f b) (f a)) (c :: cs) := rfl

/-- The full specification of `sort_connections` on a numeric column key:
it permutes the rows, orders them by the raw key in the requested
direction, and keeps rows with equal keys in input order (the filtered
subsequence at each key value is unchanged). -/
theorem sort_connections_int_spec (f : RatedConn → Int) (asc : Bool)
    (rows : List RatedConn) :
    List.Perm (Gtk.sort_connections f Gtk.intLe asc rows) rows
    ∧ List.Pairwise (fun a b => if asc then f a ≤ f b else f b ≤ f a)
        (Gtk.sort_connections f Gtk.intLe asc rows)
    ∧ ∀ k : Int, (Gtk.sort_connections f Gtk.intLe asc rows).filter (fun y => f y == k)
        = rows.filter (fun y => f y == k) := by
  refine ⟨sort_connections_perm f Gtk.intLe asc rows, ?_, ?_⟩
  · cases rows with
    | nil => simp [Gtk.sort_connections]
    | cons c cs =>
      cases asc with
      | true =>
        rw [sort_connections_cons_asc]
        have h := @stableSortLe_pairwise RatedConn
          (fun a b : RatedConn => Gtk.intLe (f a) (f b))
          (fun a b => by simp [Gtk.intLe]; exact Int.le_total (f a) (f b))
          (fun a b c h1 h2 => by
            simp only [Gtk.intLe, decide_eq_true_eq] at h1 h2 ⊢
            exact le_trans h1 h2)
          (c :: cs)
        refine h.imp ?_
        intro a b hab
        simpa [Gtk.intLe] using hab
      | false =>
        rw [sort_connections_cons_desc]
        have h := @stableSortLe_pairwise RatedConn
          (fun a b : RatedConn => Gtk.intLe (f b) (f a))
          (fun a b => by simp [Gtk.intLe]; exact (Int.le_total (f b) (f a)).symm.symm)
          (fun a b c h1 h2 => by
            simp only [Gtk.intLe, decide_eq_true_eq] at h1 h2 ⊢
            exact le_trans h2 h1)
          (c :: cs)
        refine h.imp ?_
        intro a b hab
        simpa [Gtk.intLe] using hab
  · intro k
    cases rows with
    | nil => simp [Gtk.sort_connections]
    | cons c cs =>
      cases asc with
      | true =>
        rw [sort_connections_cons_asc]
        exact keyedSort_filter f Gtk.intLe (fun j => by simp [Gtk.intLe]) (c :: cs) k
      | false =>
        rw [sort_connections_cons_desc]
        exact keyedSort_filter f (fun p q => Gtk.intLe q p) (fun j => by simp [Gtk.intLe])
          (c :: cs) k

/-! ## Helper lemmas: the GTK rate loop -/

theorem computeRatesAux_nonneg (prev : IoMap) (io : String → Int × Int) :
    ∀ (conns : List Conn) (cur : IoMap) (r : RatedConn),
      r ∈ (Gtk.computeRatesAux prev io cur conns).rated → 0 ≤ r.rx_rate ∧ 0 ≤ r.tx_rate := by
  intro conns
  induction conns with
  | nil => intro cur r h; simp [Gtk.computeRatesAux] at h
  | cons c cs ih =>
    intro cur r h
    simp only [Gtk.computeRatesAux] at h
    split at h
    · rcases List.mem_cons.mp h with h1 | h1
      · subst h1
        constructor
        · rcases hl : ioLookup c.pid prev with _ | p <;> simp [hl]
        · rcases hl : ioLookup c.pid prev with _ | p <;> simp [hl]
      · exact ih _ r h1
    · rcases List.mem_cons.mp h with h1 | h1
      · subst h1; exact ⟨le_refl 0, le_refl 0⟩
      · exact ih _ r h1

theorem computeRatesAux_keys (prev : IoMap) (io : String → Int × Int) :
    ∀ (conns : List Conn) (cur : IoMap) (pid : String),
      ioLookup pid (Gtk.computeRatesAux prev io cur conns).current_io ≠ none →
      ioLookup pid cur ≠ none ∨ pid ∈ conns.map (fun c => c.pid) := by
  intro conns
  induction conns with
  | nil => intro cur pid h; exact Or.inl h
  | cons c cs ih =>
    intro cur pid h
    simp only [Gtk.computeRatesAux] at h
    split at h
    · rcases ih _ pid h with h1 | h1
      · rw [ioLookup_ioInsert] at h1
        by_cases hc : c.pid = pid
        · exact Or.inr (by simp [hc])
        · rw [if_neg hc] at h1
          exact Or.inl h1
      · exact Or.inr (by simp [h1])
    · rcases ih _ pid h with h1 | h1
      · exact Or.inl h1
      · exact Or.inr (by simp [h1])

/-! ## Helper lemmas: the terminal loop -/

theorem cycleRows_prev_mono (io : String → Int × Int) :
    ∀ (conns : List Conn) (prev : IoMap) (pid : String) (v : Int × Int),
      ioLookup pid prev = some v →
      ∃ w, ioLookup pid (Terminal.cycleRows prev io conns).prev_io = some w := by
  intro conns
  induction conns with
  | nil => intro prev pid v h; exact ⟨v, h⟩
  | cons c cs ih =>
    intro prev pid v h
    simp only [Terminal.cycleRows]
    split
    · exact ih prev pid v h
    · split
      · by_cases hc : c.pid = pid
        · exact ih _ pid (io c.pid) (by rw [ioLookup_ioInsert, if_pos hc])
        · exact ih _ pid v (by rw [ioLookup_ioInsert, if_neg hc]; exact h)
      · exact ih prev pid v h

theorem cycleRows_rows_map (io : String → Int × Int) :
    ∀ (conns : List Conn) (prev : IoMap),
      (Terminal.cycleRows prev io conns).rows.map (fun t => t.1)
        = conns.filter (fun c => Terminal.resolve_address c.remote != "LOCALHOST") := by
  intro conns
  induction conns with
  | nil => intro prev; simp [Terminal.cycleRows]
  | cons c cs ih =>
    intro prev
    simp only [Terminal.cycleRows]
    by_cases hL : Terminal.resolve_address c.remote = "LOCALHOST"
    · rw [if_pos hL]
      rw [ih prev]
      simp [List.filter_cons, hL]
    · rw [if_neg hL]
      split <;> simp [List.filter_cons, hL, ih]

theorem active_cons_aux (c : Conn) (r : Int × Int) (rows : List (Conn × Int × Int)) (a : Nat)
    (ha : a = List.countP (fun t => decide (0 < t.2.1) || decide (0 < t.2.2)) rows) :
    (if (decide (0 < r.1) || decide (0 < r.2)) = true then a + 1 else a)
      = List.countP (fun t => decide (0 < t.2.1) || decide (0 < t.2.2))
          ((c, r.1, r.2) :: rows) := by
  subst ha
  rw [List.countP_cons]
  by_cases h : (decide (0 < r.1) || decide (0 < r.2)) = true <;> simp [h]

theorem cycleRows_active (io : String → Int × Int) :
    ∀ (conns : List Conn) (prev : IoMap),
      (Terminal.cycleRows prev io conns).active
        = List.countP (fun t => decide (0 < t.2.1) || decide (0 < t.2.2))
            (Terminal.cycleRows prev io conns).rows := by
  intro conns
  induction conns with
  | nil => intro prev; simp [Terminal.cycleRows]
  | cons c cs ih =>
    intro prev
    simp only [Terminal.cycleRows]
    split
    · exact ih prev
    · split
      · exact active_cons_aux c _ _ _ (ih _)
      · exact active_cons_aux c ((0, 0) : Int × Int) (Terminal.cycleRows prev io cs).rows
          (Terminal.cycleRows prev io cs).active (ih prev)

/-! ## Helper lemmas: counter parsing -/

theorem readIoLines_nonneg :
    ∀ (ls : List String) (rx tx : Int), 0 ≤ rx → 0 ≤ tx →
      (∀ l ∈ ls, 0 ≤ ((((pySplitWs l).get? 1).bind pyInt).getD 0)) →
      ∀ p, readIoLines ls rx tx = Except.ok p → 0 ≤ p.1 ∧ 0 ≤ p.2 := by
  intro ls
  induction ls with
  | nil =>
    intro rx tx hrx htx _ p hp
    simp only [readIoLines] at hp
    cases hp
    exact ⟨hrx, htx⟩
  | cons l ls ih =>
    intro rx tx hrx htx hall p hp
    have hl : 0 ≤ ((((pySplitWs l).get? 1).bind pyInt).getD 0) := hall l (by simp)
    have hall' : ∀ x ∈ ls, 0 ≤ ((((pySplitWs x).get? 1).bind pyInt).getD 0) := by
      intro x hx; exact hall x (by simp [hx])
    simp only [readIoLines] at hp
    split at hp
    · rcases hget : (pySplitWs l).get? 1 with _ | t
      · simp only [hget] at hp
        exact (Except.noConfusion hp)
      · simp only [hget] at hp
        rcases hint : pyInt t with _ | v
        · simp only [hint] at hp
          exact (Except.noConfusion hp)
        · simp only [hint] at hp
          have hv : 0 ≤ v := by
            rw [hget, Option.some_bind, hint, Option.getD_some] at hl
            exact hl
          exact ih v tx hv htx hall' p hp
    · split at hp
      · rcases hget : (pySplitWs l).get? 1 with _ | t
        · simp only [hget] at hp
          exact (Except.noConfusion hp)
        · simp only [hget] at hp
          rcases hint : pyInt t with _ | v
          · simp only [hint] at hp
            exact (Except.noConfusion hp)
          · simp only [hint] at hp
            have hv : 0 ≤ v := by
              rw [hget, Option.some_bind, hint, Option.getD_some] at hl
              exact hl
            exact ih rx v hrx hv hall' p hp
      · exact ih rx tx hrx htx hall' p hp

/-! ## Shared row-level consequence of the localhost filter -/

theorem update_rows_not_localhost (κ : Type) (f : RatedConn → κ) (leK : κ → κ → Bool)
    (asc : Bool) (st : Gtk.MonitorState) (io : String → Int × Int) (conns : List Conn)
    (r : RatedConn) (hr : r ∈ (Gtk.update_connections st io conns f leK asc).rows) :
    (Gtk.resolve_address st r.conn.remote).display ≠ "LOCALHOST" := by
  have hrows : (Gtk.update_connections st io conns f leK asc).rows
      = Gtk.sort_connections f leK asc
          (Gtk.filterLocalhost
            {st with prev_io := (Gtk.computeRates st.prev_io io conns).current_io}
            (Gtk.computeRates st.prev_io io conns).rated).1 := rfl
  rw [hrows] at hr
  have hmem := (sort_connections_perm f leK asc _).mem_iff.mp hr
  rw [filterLocalhost_fst] at hmem
  have hp := List.of_mem_filter hmem
  rw [resolve_display_eq]
  simpa using hp

/-! ## Claim C1 -/

/-- C1 counterexample: in the terminal program the rate is the raw counter
difference, so with a previous sample `(10, 10)` and a current reading
`(5, 5)` the displayed rates are `(-5, -5)` — negative, and different from
the claimed `max(0, current - previous)` which would be `0`. -/
theorem claim1_counterexample :
    (Terminal.cycleRows prevFix ioFix [connFix]).rows = [(connFix, -5, -5)]
    ∧ ((-5 : Int) ≠ max 0 ((5 : Int) - 10))
    ∧ ¬ (0 : Int) ≤ -5 := by
  refine ⟨by decide, by decide, by decide⟩

/-- C1 (amended): in the GTK program the rates of a process with a previous
sample are exactly `max(0, current - previous)` and every computed rate is
non-negative; in the terminal program the rate of such a process is the raw
difference `current - previous`, which may be negative. -/
theorem claim1_rates (prev : IoMap) (io : String → Int × Int) (c : Conn) (p : Int × Int)
    (hpid : c.pid ≠ "N/A") (hprev : ioLookup c.pid prev = some p) :
    (Gtk.computeRates prev io [c]).rated
        = [⟨c, max 0 ((io c.pid).1 - p.1), max 0 ((io c.pid).2 - p.2)⟩]
    ∧ (∀ (conns : List Conn) (r : RatedConn),
        r ∈ (Gtk.computeRates prev io conns).rated → 0 ≤ r.rx_rate ∧ 0 ≤ r.tx_rate)
    ∧ (Terminal.resolve_address c.remote ≠ "LOCALHOST" →
        (Terminal.cycleRows prev io [c]).rows
          = [(c, (io c.pid).1 - p.1, (io c.pid).2 - p.2)]) := by
  refine ⟨?_, ?_, ?_⟩
  · simp [Gtk.computeRates, Gtk.computeRatesAux, hpid, hprev]
  · intro conns r h
    exact computeRatesAux_nonneg prev io conns [] r h
  · intro hL
    simp [Terminal.cycleRows, hL, hpid, hprev]

/-- C1 witness: the amended theorem applied at pid 1 with previous sample
`(10, 10)` and current reading `(5, 5)`. -/
theorem claim1_rates_witness :
    (Gtk.computeRates prevFix ioFix [connFix]).rated
        = [⟨connFix, max 0 ((ioFix connFix.pid).1 - 10), max 0 ((ioFix connFix.pid).2 - 10)⟩]
    ∧ (∀ (conns : List Conn) (r : RatedConn),
        r ∈ (Gtk.computeRates prevFix ioFix conns).rated → 0 ≤ r.rx_rate ∧ 0 ≤ r.tx_rate)
    ∧ (Terminal.resolve_address connFix.remote ≠ "LOCALHOST" →
        (Terminal.cycleRows prevFix ioFix [connFix]).rows
          = [(connFix, (ioFix connFix.pid).1 - 10, (ioFix connFix.pid).2 - 10)]) :=
  claim1_rates prevFix ioFix connFix (10, 10) (by decide) (by decide)

/-! ## Claim C2 -/

/-- C2 counterexample: the terminal program updates its retained map in
place and never rebuilds it, so after a cycle whose connections are owned
only by pid 2, the entry for the vanished pid 1 is still present. -/
theorem claim2_counterexample :
    ioLookup "1" (Terminal.cycleRows prevFix ioFix [connFix2]).prev_io = some (10, 10)
    ∧ "1" ∉ [connFix2].map (fun c => c.pid) := by
  refine ⟨by decide, by decide⟩

/-- C2 (amended): in the GTK program the retained map is replaced in full
by the cycle's freshly built map, so a pid absent from the cycle's
connections is absent from the retained map afterwards; in the terminal
program the map is updated in place and an entry present before the cycle
is still present after it, whether or not its pid occurs in the cycle. -/
theorem claim2_tracker (κ : Type) (f : RatedConn → κ) (leK : κ → κ → Bool) (asc : Bool)
    (st : Gtk.MonitorState) (io : String → Int × Int) (conns : List Conn) (pid : String) :
    (pid ∉ conns.map (fun c => c.pid) →
      ioLookup pid (Gtk.update_connections st io conns f leK asc).state.prev_io = none)
    ∧ (∀ (prev : IoMap) (v : Int × Int), ioLookup pid prev = some v →
        ∃ w, ioLookup pid (Terminal.cycleRows prev io conns).prev_io = some w) := by
  constructor
  · intro hnot
    have h1 : (Gtk.update_connections st io conns f leK asc).state.prev_io
        = (Gtk.computeRates st.prev_io io conns).current_io := by
      simp only [Gtk.update_connections]
      rw [filterLocalhost_prev]
    rw [h1]
    by_contra hne
    have hne' : ioLookup pid (Gtk.computeRatesAux st.prev_io io [] conns).current_io ≠ none := hne
    rcases computeRatesAux_keys st.prev_io io conns [] pid hne' with h2 | h2
    · exact h2 rfl
    · exact hnot h2
  · intro prev v hv
    exact cycleRows_prev_mono io conns prev pid v hv

/-- C2 witness: with connections owned only by pid 2, pid 1 is dropped from
the GTK map but survives in the terminal map. -/
theorem claim2_tracker_witness :
    ioLookup "1"
      (Gtk.update_connections stFix ioFix [connFix2] Gtk.txKey Gtk.intLe true).state.prev_io = none
    ∧ ∃ w, ioLookup "1" (Terminal.cycleRows prevFix ioFix [connFix2]).prev_io = some w :=
  ⟨(claim2_tracker Int Gtk.txKey Gtk.intLe true stFix ioFix [connFix2] "1").1 (by decide),
   (claim2_tracker Int Gtk.txKey Gtk.intLe true stFix ioFix [connFix2] "1").2 prevFix (10, 10)
     (by decide)⟩

/-! ## Claim C3 -/

/-- C3: when the lookup for IP 93.184.216.34 completes for endpoint
93.184.216.34:443, the completion handler does write the cache and trigger
a re-render, but it does not remove the IP from the pending set: the guard
tests the full `ip:port` string against a set holding bare IPs, so the
discard never runs and the IP stays pending. -/
theorem claim3_completion_pending_bug :
    (Gtk.update_resolution_cache stPendingFix "93.184.216.34:443" "example.com:443").1.resolution_cache
        = [("93.184.216.34:443", "example.com:443")]
    ∧ (Gtk.update_resolution_cache stPendingFix "93.184.216.34:443" "example.com:443").2 = true
    ∧ (Gtk.update_resolution_cache stPendingFix "93.184.216.34:443" "example.com:443").1.resolution_pending
        = ["93.184.216.34"]
    ∧ "93.184.216.34"
        ∈ (Gtk.update_resolution_cache stPendingFix "93.184.216.34:443" "example.com:443").1.resolution_pending := by
  refine ⟨by decide, rfl, by decide, by decide⟩

/-! ## Claim C4 -/

/-- C4 counterexample: enabling resolution does trigger a refresh — the
toggle handler unconditionally schedules `delayed_refresh`, and running it
clears a non-empty retained counter map. -/
theorem claim4_counterexample :
    (Gtk.on_resolve_toggled stToggleFix true).2 = true
    ∧ (Gtk.delayed_refresh (Gtk.on_resolve_toggled stToggleFix true).1).prev_io = []
    ∧ stToggleFix.prev_io ≠ [] := by
  refine ⟨rfl, rfl, by decide⟩

/-- C4 (amended): enabling resolution performs no eager resolution work —
the cache and the pending set are unchanged and the handler itself leaves
the counter map untouched — but the handler unconditionally schedules a
delayed refresh, and that refresh clears the Rate Tracker's retained
counter map and re-runs the render loop. -/
theorem claim4_enable_effects (st : Gtk.MonitorState) :
    (Gtk.on_resolve_toggled st true).1.resolution_cache = st.resolution_cache
    ∧ (Gtk.on_resolve_toggled st true).1.resolution_pending = st.resolution_pending
    ∧ (Gtk.on_resolve_toggled st true).1.resolve_hosts = true
    ∧ (Gtk.on_resolve_toggled st true).1.prev_io = st.prev_io
    ∧ (Gtk.on_resolve_toggled st true).2 = true
    ∧ (Gtk.delayed_refresh (Gtk.on_resolve_toggled st true).1).prev_io = [] := by
  simp [Gtk.on_resolve_toggled, Gtk.delayed_refresh]

/-! ## Claim C5 -/

/-- C5: for an endpoint on the general resolution path (not a special form)
with resolution enabled, no cache entry and its IP component not pending,
the first `resolve_address` call returns the raw endpoint and schedules
exactly one background lookup for that IP, and an immediately following
second call returns the same raw string, schedules nothing and leaves the
state unchanged; the pending set stays duplicate-free, so an IP appears in
it at most once. -/
theorem claim5_resolve_once (st : Gtk.MonitorState) (addr : String)
    (hon : st.resolve_hosts = true)
    (ha1 : addr ≠ "0.0.0.0:*") (ha2 : addr ≠ "*:*") (ha3 : addr ≠ "[::]:*")
    (hb1 : pyStartsWith addr "127.0.0.1:" = false)
    (hb2 : pyStartsWith addr "[::1]:" = false)
    (hc : pyStartsWith addr "224.0.0.251:" = false)
    (hcache : Gtk.cacheLookup addr st.resolution_cache = none)
    (hcolon : pyContainsChar ':' addr = true)
    (hpend : st.resolution_pending.contains (Gtk.ip_part_of addr) = false) :
    (Gtk.resolve_address st addr).display = addr
    ∧ (Gtk.resolve_address st addr).scheduled = [(Gtk.ip_part_of addr, addr)]
    ∧ (Gtk.resolve_address st addr).state.resolution_pending
        = Gtk.ip_part_of addr :: st.resolution_pending
    ∧ (Gtk.resolve_address (Gtk.resolve_address st addr).state addr).display = addr
    ∧ (Gtk.resolve_address (Gtk.resolve_address st addr).state addr).scheduled = []
    ∧ (Gtk.resolve_address (Gtk.resolve_address st addr).state addr).state
        = (Gtk.resolve_address st addr).state
    ∧ (st.resolution_pending.Nodup →
        (Gtk.resolve_address st addr).state.resolution_pending.Nodup) := by
  have h1 : Gtk.resolve_address st addr
      = ⟨addr, {st with resolution_pending := Gtk.ip_part_of addr :: st.resolution_pending},
          [(Gtk.ip_part_of addr, addr)]⟩ := by
    simp [Gtk.resolve_address, hon, ha1, ha2, ha3, hb1, hb2, hc, hcache, hcolon, hpend]
    exact contains_false_not_mem hpend
  have hcont : ((Gtk.ip_part_of addr :: st.resolution_pending).contains
      (Gtk.ip_part_of addr)) = true := by
    simp [List.contains_cons]
  have h2 : Gtk.resolve_address
        {st with resolution_pending := Gtk.ip_part_of addr :: st.resolution_pending} addr
      = ⟨addr, {st with resolution_pending := Gtk.ip_part_of addr :: st.resolution_pending},
          []⟩ := by
    simp [Gtk.resolve_address, hon, ha1, ha2, ha3, hb1, hb2, hc, hcache, hcolon, hcont]
  refine ⟨by rw [h1], by rw [h1], by rw [h1], ?_, ?_, ?_, ?_⟩
  · rw [h1]
    simpa using congrArg Gtk.ResolveOut.display h2
  · rw [h1]
    simpa using congrArg Gtk.ResolveOut.scheduled h2
  · rw [h1]
    simpa using congrArg Gtk.ResolveOut.state h2
  · intro hnd
    rw [h1]
    exact List.Nodup.cons (contains_false_not_mem hpend) hnd

/-- C5 witness: the fresh state and the endpoint 93.184.216.34:443. -/
theorem claim5_resolve_once_witness :
    (Gtk.resolve_address stFix "93.184.216.34:443").display = "93.184.216.34:443"
    ∧ (Gtk.resolve_address stFix "93.184.216.34:443").scheduled
        = [(Gtk.ip_part_of "93.184.216.34:443", "93.184.216.34:443")]
    ∧ (Gtk.resolve_address stFix "93.184.216.34:443").state.resolution_pending
        = Gtk.ip_part_of "93.184.216.34:443" :: stFix.resolution_pending
    ∧ (Gtk.resolve_address (Gtk.resolve_address stFix "93.184.216.34:443").state
        "93.184.216.34:443").display = "93.184.216.34:443"
    ∧ (Gtk.resolve_address (Gtk.resolve_address stFix "93.184.216.34:443").state
        "93.184.216.34:443").scheduled = []
    ∧ (Gtk.resolve_address (Gtk.resolve_address stFix "93.184.216.34:443").state
        "93.184.216.34:443").state = (Gtk.resolve_address stFix "93.184.216.34:443").state
    ∧ (stFix.resolution_pending.Nodup →
        (Gtk.resolve_address stFix "93.184.216.34:443").state.resolution_pending.Nodup) :=
  claim5_resolve_once stFix "93.184.216.34:443" rfl (by decide) (by decide) (by decide)
    (by decide) (by decide) (by decide) rfl (by decide) (by decide)

/-! ## Claim C6 -/

/-- C6: in every reachable state of the admission-gate protocol (acquire
before the blocking lookup, release on every exit path) at most 5 lookup
workers are in flight at once. -/
theorem claim6_semaphore_bound (s : SemState) (h : SemReachable s) : s.inflight ≤ 5 := by
  have key : ∀ t : SemState, SemReachable t → t.available + t.inflight = 5 := by
    intro t ht
    induction ht with
    | refl => rfl
    | tail _ hstep ih =>
      cases hstep with
      | acquire hu => simp only [] ; omega
      | release hu => simp only [] ; omega
  have := key s h
  omega

/-- C6 witness: the state after one acquisition is reachable and within the
bound. -/
theorem claim6_semaphore_bound_witness : (⟨4, 1⟩ : SemState).inflight ≤ 5 :=
  claim6_semaphore_bound ⟨4, 1⟩
    (Relation.ReflTransGen.single (SemStep.acquire semInit (by decide)))

/-! ## Claim C7 -/

/-- C7: for every input row set, every sort key and direction, and every
resolver state, a row whose resolved remote endpoint is LOCALHOST never
appears in the rows emitted by an update cycle. -/
theorem claim7_no_localhost_rows (κ : Type) (f : RatedConn → κ) (leK : κ → κ → Bool)
    (asc : Bool) (st : Gtk.MonitorState) (io : String → Int × Int) (conns : List Conn)
    (r : RatedConn) (hr : r ∈ (Gtk.update_connections st io conns f leK asc).rows) :
    (Gtk.resolve_address st r.conn.remote).display ≠ "LOCALHOST" :=
  update_rows_not_localhost κ f leK asc st io conns r hr

/-- C7 witness: the non-localhost row emitted for connFix. -/
theorem claim7_no_localhost_rows_witness :
    (Gtk.resolve_address stFix (RatedConn.mk connFix 0 0).conn.remote).display ≠ "LOCALHOST" :=
  claim7_no_localhost_rows Int Gtk.txKey Gtk.intLe true stFix ioZero [connFix]
    (RatedConn.mk connFix 0 0) (by decide)

/-! ## Claim C8 -/

/-- C8: with the TX-rate or RX-rate column selected, `sort_connections`
permutes the rows, orders them by the raw numeric rate value in the chosen
direction, and rows with equal sort keys keep their input relative order
(the subsequence of rows at each key value is unchanged), for both
directions. -/
theorem claim8_numeric_sort (rows : List RatedConn) (asc : Bool) :
    (List.Perm (Gtk.sort_connections Gtk.txKey Gtk.intLe asc rows) rows
     ∧ List.Pairwise
         (fun a b => if asc then Gtk.txKey a ≤ Gtk.txKey b else Gtk.txKey b ≤ Gtk.txKey a)
         (Gtk.sort_connections Gtk.txKey Gtk.intLe asc rows)
     ∧ ∀ k : Int,
         (Gtk.sort_connections Gtk.txKey Gtk.intLe asc rows).filter (fun y => Gtk.txKey y == k)
           = rows.filter (fun y => Gtk.txKey y == k))
    ∧ (List.Perm (Gtk.sort_connections Gtk.rxKey Gtk.intLe asc rows) rows
     ∧ List.Pairwise
         (fun a b => if asc then Gtk.rxKey a ≤ Gtk.rxKey b else Gtk.rxKey b ≤ Gtk.rxKey a)
         (Gtk.sort_connections Gtk.rxKey Gtk.intLe asc rows)
     ∧ ∀ k : Int,
         (Gtk.sort_connections Gtk.rxKey Gtk.intLe asc rows).filter (fun y => Gtk.rxKey y == k)
           = rows.filter (fun y => Gtk.rxKey y == k)) :=
  ⟨sort_connections_int_spec Gtk.txKey asc rows, sort_connections_int_spec Gtk.rxKey asc rows⟩

/-! ## Claim C9 -/

/-- C9 counterexample: a counter line whose token is a signed integer is
parsed without an exception, so the function returns the negative value
`(-5, 0)` instead of `(0, 0)`, violating the claimed non-negativity. -/
theorem claim9_counterexample :
    get_process_io (some "rchar: -5") = (-5, 0)
    ∧ ¬ (0 : Int) ≤ (get_process_io (some "rchar: -5")).1 := by
  refine ⟨by decide, by decide⟩

/-- C9 (amended): the counter reader is total; it returns `(0, 0)` when the
file cannot be opened and when parsing raises; and whenever every counter
token that parses at all parses to a non-negative integer — as the /proc
contract guarantees — both returned values are non-negative (a signed
negative token, however, is returned as parsed). -/
theorem claim9_total_guarded :
    get_process_io none = (0, 0)
    ∧ (∀ content : String, readIoLines (pySplit '\n' content) 0 0 = Except.error () →
        get_process_io (some content) = (0, 0))
    ∧ (∀ content : String,
        (∀ l ∈ pySplit '\n' content, 0 ≤ ((((pySplitWs l).get? 1).bind pyInt).getD 0)) →
        0 ≤ (get_process_io (some content)).1 ∧ 0 ≤ (get_process_io (some content)).2) := by
  refine ⟨rfl, ?_, ?_⟩
  · intro content h
    simp [get_process_io, h]
  · intro content hall
    rcases hE : readIoLines (pySplit '\n' content) 0 0 with e | p
    · simp [get_process_io, hE]
    · have hp := readIoLines_nonneg (pySplit '\n' content) 0 0 le_rfl le_rfl hall p hE
      simpa [get_process_io, hE] using hp

/-- C9 witness: a well-formed /proc io file yields non-negative counters. -/
theorem claim9_total_guarded_witness :
    0 ≤ (get_process_io (some "rchar: 5\nwchar: 7")).1
    ∧ 0 ≤ (get_process_io (some "rchar: 5\nwchar: 7")).2 :=
  claim9_total_guarded.2.2 "rchar: 5\nwchar: 7" (by decide)

/-! ## Claim C10 -/

/-- C10: the reported total is the number of all sampled connections,
localhost-destined ones included, while the active count is computed only
over the emitted rows, which never contain a localhost-destined row — so
the total can exceed the number of displayed rows and an active localhost
connection is never counted as active; the closing conjunct exhibits this
on a cycle whose only connection is localhost-destined with positive
rates. -/
theorem claim10_summary_counts :
    (∀ (κ : Type) (f : RatedConn → κ) (leK : κ → κ → Bool) (asc : Bool)
       (st : Gtk.MonitorState) (io : String → Int × Int) (conns : List Conn),
        (Gtk.update_connections st io conns f leK asc).total = conns.length
        ∧ (Gtk.update_connections st io conns f leK asc).active
            = List.countP (fun r => decide (0 < r.rx_rate) || decide (0 < r.tx_rate))
                (Gtk.update_connections st io conns f leK asc).rows
        ∧ ∀ r ∈ (Gtk.update_connections st io conns f leK asc).rows,
            (Gtk.resolve_address st r.conn.remote).display ≠ "LOCALHOST")
    ∧ (∀ (prev : IoMap) (io : String → Int × Int) (conns : List Conn),
        Terminal.summary_total conns = conns.length
        ∧ (Terminal.cycleRows prev io conns).rows.map (fun t => t.1)
            = conns.filter (fun c => Terminal.resolve_address c.remote != "LOCALHOST")
        ∧ (Terminal.cycleRows prev io conns).active
            = List.countP (fun t => decide (0 < t.2.1) || decide (0 < t.2.2))
                (Terminal.cycleRows prev io conns).rows)
    ∧ ((Gtk.update_connections stActiveLocalFix ioActiveFix [localFix] Gtk.txKey Gtk.intLe true).total
          = 1
       ∧ (Gtk.update_connections stActiveLocalFix ioActiveFix [localFix] Gtk.txKey Gtk.intLe true).rows
          = []
       ∧ (Gtk.update_connections stActiveLocalFix ioActiveFix [localFix] Gtk.txKey Gtk.intLe true).active
          = 0) := by
  refine ⟨?_, ?_, by decide, by decide, by decide⟩
  · intro κ f leK asc st io conns
    exact ⟨rfl, rfl, fun r hr => update_rows_not_localhost κ f leK asc st io conns r hr⟩
  · intro prev io conns
    exact ⟨rfl, cycleRows_rows_map io conns prev, cycleRows_active io conns prev⟩

/-- C10 witness: a cycle with one non-localhost connection reports total 1
and its emitted row is not localhost-resolved. -/
theorem claim10_summary_counts_witness :
    (Gtk.update_connections stFix ioZero [connFix2] Gtk.txKey Gtk.intLe true).total = 1
    ∧ (Gtk.resolve_address stFix (RatedConn.mk connFix2 0 0).conn.remote).display
        ≠ "LOCALHOST" :=
  ⟨(claim10_summary_counts.1 Int Gtk.txKey Gtk.intLe true stFix ioZero [connFix2]).1,
   (claim10_summary_counts.1 Int Gtk.txKey Gtk.intLe true stFix ioZero [connFix2]).2.2
     (RatedConn.mk connFix2 0 0) (by decide)⟩
